import Mathlib

/-!
Verification development for the dragonpanda unified search, trending-score
and rate-limiting subsystem.

Shallow embedding conventions:
* Timestamps handled by the search engine are integers (epoch seconds); the
  trending-score calculator works in exact rationals; the rate limiter uses
  natural numbers counting minutes since the epoch.
* Database tables are association lists kept in insertion order; a Supabase
  maybeSingle call is modelled as returning a value only when the filtered
  list has exactly one row, which matches PostgREST behaviour given the
  unique indexes declared in the migrations.
* The outcome of a whole-table read is an Except value so that a failing
  retriever (the error branch of each search function) can be modelled.
* Postgres full-text matching (websearch tsquery against the trigger-built
  search vectors) is external to the repository; the Db structure carries one
  abstract match predicate per table.
* String rendering externalities (toLocaleString, substring truncation) are
  abstracted into the Desc inductive carried by results.
-/

namespace DragonPanda

/-- Row of the x_trends table (src/lib/supabase.ts, interface XTrend). -/
structure XTrend where
  id : String
  trend_name : String
  tweet_count : Nat
  url : String
  category : String
  fetched_at : Int
  deriving DecidableEq, Repr

/-- Row of the github_repos table (src/lib/supabase.ts, interface GitHubRepo). -/
structure GitHubRepo where
  id : String
  repo_name : String
  description : String
  stars : Nat
  language : String
  url : String
  topics : List String
  fetched_at : Int
  deriving DecidableEq, Repr

/-- Row of the knowledge_entries table (src/lib/supabase.ts, interface KnowledgeEntry). -/
structure KnowledgeEntry where
  id : String
  title : String
  content : String
  source : String
  source_url : Option String
  category : String
  tags : List String
  relevance_score : Nat
  verified : Bool
  created_at : Int
  deriving DecidableEq, Repr

/-- The sortBy union of SearchFilters. -/
inductive SortKey where
  | relevance | trending | recent | popular | velocity
  deriving DecidableEq, Repr

/-- The sources union of SearchFilters. -/
inductive SourceSel where
  | x_trends | github_repos | knowledge_entries
  deriving DecidableEq, Repr

/-- SearchFilters from the unified-search module. -/
structure SearchFilters where
  query : Option String := none
  categories : Option (List String) := none
  tags : Option (List String) := none
  languages : Option (List String) := none
  sources : Option (List SourceSel) := none
  dateFrom : Option Int := none
  dateTo : Option Int := none
  minEngagement : Option Nat := none
  sortBy : Option SortKey := none
  limit : Option Nat := none
  offset : Option Nat := none
  deriving DecidableEq, Repr

/-- The type union of SearchResult. -/
inductive ResultType where
  | x_trend | github_repo | knowledge_entry
  deriving DecidableEq, Repr

/-- String name of a result type, as used for the source facet keys. -/
def typeName : ResultType → String
  | .x_trend => "x_trend"
  | .github_repo => "github_repo"
  | .knowledge_entry => "knowledge_entry"

/-- Description text of a result. The x-trend constructor abstracts the
locale-dependent toLocaleString rendering and carries the tweet count;
the other two carry the computed strings. -/
inductive Desc where
  | trendPosts (tweetCount : Nat)
  | repoDesc (text : String)
  | knowDesc (text : String)
  deriving DecidableEq, Repr

/-- Metadata object attached to a search result, one shape per source. -/
inductive RMeta where
  | xmeta (tweetCount : Nat) (fetchedAt : Int)
  | rmeta (stars : Nat) (language : String) (topics : List String) (fetchedAt : Int)
  | kmeta (source : String) (verified : Bool) (relevanceScore : Nat) (createdAt : Int)
  deriving DecidableEq, Repr

/-- SearchResult from the unified-search module. -/
structure SearchResult where
  id : String
  type : ResultType
  title : String
  description : Desc
  url : Option String := none
  category : Option String := none
  tags : Option (List String) := none
  language : Option String := none
  engagement : Nat
  trendingScore : Option ℚ := none
  velocityScore : Option ℚ := none
  timestamp : Int
  metadata : RMeta
  deriving DecidableEq, Repr

/-- Facet lists of the response, each entry a name with its count. -/
structure Facets where
  categories : List (String × Nat)
  tags : List (String × Nat)
  languages : List (String × Nat)
  sources : List (String × Nat)
  deriving DecidableEq, Repr

/-- SearchResponse from the unified-search module. -/
structure SearchResponse where
  results : List SearchResult
  total : Nat
  facets : Facets
  searchId : String
  deriving DecidableEq, Repr

/-- Row of the search_suggestions table. -/
structure Suggestion where
  text : String
  stype : String
  usage_count : Nat
  last_used_at : Int
  deriving DecidableEq, Repr

/-- Row of the search_history table (the fields the embedding tracks). -/
structure HistoryRow where
  search_query : String
  results_count : Nat
  search_type : String
  deriving DecidableEq, Repr

/-- Mutable application state touched by recordSearchHistory. -/
structure AppState where
  suggestions : List Suggestion
  history : List HistoryRow
  deriving DecidableEq, Repr

/-- JavaScript truthiness of an optional string: the empty string is falsy. -/
def strTruthy : Option String → Option String
  | some "" => none
  | o => o

/-- JavaScript truthiness of an optional number: zero is falsy. -/
def natTruthy : Option Nat → Option Nat
  | some 0 => none
  | o => o

/-- An optional list passed through a length-positive guard. -/
def listNonempty {β : Type} : Option (List β) → Option (List β)
  | some [] => none
  | o => o

/-- PostgREST maybeSingle: a row only when the filter matched exactly one. -/
def maybeSingle {β : Type} : List β → Option β
  | [x] => some x
  | _ => none

/-- Stable descending sort by a rational key, modelling the stable
JavaScript sort with comparator (a, b) => key b - key a. -/
def sortDescQ {β : Type} (key : β → ℚ) (l : List β) : List β :=
  l.insertionSort (fun a b => key b ≤ key a)

/-- Stable descending sort by a natural key. -/
def sortDescN {β : Type} (key : β → Nat) (l : List β) : List β :=
  l.insertionSort (fun a b => key b ≤ key a)

/-- Stable descending sort by an integer key. -/
def sortDescZ {β : Type} (key : β → Int) (l : List β) : List β :=
  l.insertionSort (fun a b => key b ≤ key a)

/-- applySorting from the unified-search module; the relevance branch is the
default and returns the merge order unchanged. -/
def applySorting (results : List SearchResult) (sortBy : SortKey) : List SearchResult :=
  match sortBy with
  | .trending => sortDescQ (fun r => r.trendingScore.getD 0) results
  | .recent => sortDescZ (fun r => r.timestamp) results
  | .popular => sortDescN (fun r => r.engagement) results
  | .velocity => sortDescQ (fun r => r.velocityScore.getD 0) results
  | .relevance => results

/-- Increment the count stored for a name in an insertion-ordered count map,
appending a fresh entry when the name is new (JavaScript Map semantics). -/
def bump : List (String × Nat) → String → List (String × Nat)
  | [], s => [(s, 1)]
  | (t, c) :: l, s => if t = s then (t, c + 1) :: l else (t, c) :: bump l s

/-- Tally an optional attribute over the result list. -/
def tallyOpt {β : Type} (f : β → Option String) (l : List β) : List (String × Nat) :=
  l.foldl (fun m x => match f x with | some s => bump m s | none => m) []

/-- Tally every tag of every result. -/
def tallyTags (l : List SearchResult) : List (String × Nat) :=
  l.foldl (fun m x => match x.tags with | some ts => ts.foldl bump m | none => m) []

/-- calculateFacets from the unified-search module: count maps over the full
merged set, each sorted by descending count and truncated. -/
def calculateFacets (results : List SearchResult) : Facets :=
  { categories := (sortDescN (fun p => p.2) (tallyOpt (fun r => strTruthy r.category) results)).take 10
    tags := (sortDescN (fun p => p.2) (tallyTags results)).take 20
    languages := (sortDescN (fun p => p.2) (tallyOpt (fun r => strTruthy r.language) results)).take 15
    sources := sortDescN (fun p => p.2) (tallyOpt (fun r => some (typeName r.type)) results) }

/-- The persistent stores and external text-match predicates a search reads.
Each table read yields an Except so a failed retrieval can be modelled; the
ts functions stand for Postgres websearch matching against the trigger-built
search vectors, which is outside the repository. -/
structure Db where
  x_trends : Except String (List XTrend)
  github_repos : Except String (List GitHubRepo)
  knowledge_entries : Except String (List KnowledgeEntry)
  tsX : String → XTrend → Bool
  tsR : String → GitHubRepo → Bool
  tsK : String → KnowledgeEntry → Bool

/-- searchXTrends: filter, order by fetched_at descending, cap at 100,
project; a table error degrades to the empty list. -/
def searchXTrends (db : Db) (f : SearchFilters) : List SearchResult :=
  match db.x_trends with
  | .error _ => []
  | .ok rows =>
    let rows := match strTruthy f.query with
      | some q => rows.filter (db.tsX q)
      | none => rows
    let rows := match listNonempty f.categories with
      | some cs => rows.filter (fun t => cs.contains t.category)
      | none => rows
    let rows := match f.dateFrom with
      | some d => rows.filter (fun t => d ≤ t.fetched_at)
      | none => rows
    let rows := match f.dateTo with
      | some d => rows.filter (fun t => t.fetched_at ≤ d)
      | none => rows
    let rows := match natTruthy f.minEngagement with
      | some m => rows.filter (fun t => m ≤ t.tweet_count)
      | none => rows
    let rows := (sortDescZ (fun t => t.fetched_at) rows).take 100
    rows.map (fun trend =>
      { id := trend.id
        type := .x_trend
        title := trend.trend_name
        description := .trendPosts trend.tweet_count
        url := some trend.url
        category := some trend.category
        tags := some [trend.category]
        engagement := trend.tweet_count
        timestamp := trend.fetched_at
        metadata := .xmeta trend.tweet_count trend.fetched_at })

/-- searchGitHubRepos: filter, order by stars descending, cap at 100,
project; a table error degrades to the empty list. -/
def searchGitHubRepos (db : Db) (f : SearchFilters) : List SearchResult :=
  match db.github_repos with
  | .error _ => []
  | .ok rows =>
    let rows := match strTruthy f.query with
      | some q => rows.filter (db.tsR q)
      | none => rows
    let rows := match listNonempty f.languages with
      | some ls => rows.filter (fun t => ls.contains t.language)
      | none => rows
    let rows := match listNonempty f.tags with
      | some ts => rows.filter (fun t => ts.any (fun tg => t.topics.contains tg))
      | none => rows
    let rows := match f.dateFrom with
      | some d => rows.filter (fun t => d ≤ t.fetched_at)
      | none => rows
    let rows := match f.dateTo with
      | some d => rows.filter (fun t => t.fetched_at ≤ d)
      | none => rows
    let rows := match natTruthy f.minEngagement with
      | some m => rows.filter (fun t => m ≤ t.stars)
      | none => rows
    let rows := (sortDescN (fun t => t.stars) rows).take 100
    rows.map (fun repo =>
      { id := repo.id
        type := .github_repo
        title := repo.repo_name
        description := .repoDesc (if repo.description = "" then "No description available" else repo.description)
        url := some repo.url
        category := some "technology"
        tags := some repo.topics
        language := some repo.language
        engagement := repo.stars
        timestamp := repo.fetched_at
        metadata := .rmeta repo.stars repo.language repo.topics repo.fetched_at })

/-- searchKnowledgeEntries: verified rows only, filter, order by relevance
descending, cap at 100, project; a table error degrades to the empty list. -/
def searchKnowledgeEntries (db : Db) (f : SearchFilters) : List SearchResult :=
  match db.knowledge_entries with
  | .error _ => []
  | .ok rows =>
    let rows := rows.filter (fun e => e.verified)
    let rows := match strTruthy f.query with
      | some q => rows.filter (db.tsK q)
      | none => rows
    let rows := match listNonempty f.categories with
      | some cs => rows.filter (fun e => cs.contains e.category)
      | none => rows
    let rows := match listNonempty f.tags with
      | some ts => rows.filter (fun e => ts.any (fun tg => e.tags.contains tg))
      | none => rows
    let rows := match f.dateFrom with
      | some d => rows.filter (fun e => d ≤ e.created_at)
      | none => rows
    let rows := match f.dateTo with
      | some d => rows.filter (fun e => e.created_at ≤ d)
      | none => rows
    let rows := (sortDescN (fun e => e.relevance_score) rows).take 100
    rows.map (fun entry =>
      { id := entry.id
        type := .knowledge_entry
        title := entry.title
        description := .knowDesc (entry.content.take 200 ++ "...")
        url := strTruthy entry.source_url
        category := some entry.category
        tags := some entry.tags
        engagement := entry.relevance_score
        timestamp := entry.created_at
        metadata := .kmeta entry.source entry.verified entry.relevance_score entry.created_at })

/-- Replace the row with the same unique suggestion_text, or append
(Supabase upsert with onConflict suggestion_text, ignoreDuplicates false). -/
def upsertSuggestion : List Suggestion → Suggestion → List Suggestion
  | [], s => [s]
  | t :: l, s => if t.text = s.text then s :: l else t :: upsertSuggestion l s

/-- recordSearchHistory: append a history row for every search, and for a
truthy query text upsert a suggestion row carrying usage_count one. -/
def recordSearchHistory (f : SearchFilters) (resultsCount : Nat) (now : Int) (st : AppState) : AppState :=
  let st :=
    { st with history := st.history ++
        [{ search_query := f.query.getD "", results_count := resultsCount, search_type := "unified" }] }
  match strTruthy f.query with
  | some q =>
    let row : Suggestion := { text := q, stype := "query", usage_count := 1, last_used_at := now }
    { st with suggestions := upsertSuggestion st.suggestions row }
  | none => st

/-- All three sources, the default source selection. -/
def allSources : List SourceSel := [.x_trends, .github_repos, .knowledge_entries]

/-- performUnifiedSearch: run the selected retrievers, merge, sort, facet,
paginate and log; returns the response together with the updated state. -/
def performUnifiedSearch (db : Db) (f : SearchFilters) (searchId : String) (now : Int) (st : AppState) :
    SearchResponse × AppState :=
  let sources := f.sources.getD allSources
  let limit := (natTruthy f.limit).getD 50
  let offset := f.offset.getD 0
  let results :=
    (if sources.contains .x_trends then searchXTrends db f else []) ++
    (if sources.contains .github_repos then searchGitHubRepos db f else []) ++
    (if sources.contains .knowledge_entries then searchKnowledgeEntries db f else [])
  let sortedResults := applySorting results (f.sortBy.getD .relevance)
  let facets := calculateFacets sortedResults
  let paginatedResults := (sortedResults.drop offset).take limit
  let st := recordSearchHistory f paginatedResults.length now st
  ({ results := paginatedResults
     total := sortedResults.length
     facets := facets
     searchId := searchId }, st)

/-- getRelatedItems: look up the source item, search on its salient terms
with an enlarged limit, drop the item itself and cap at the limit. -/
def getRelatedItems (db : Db) (itemId : String) (itemType : ResultType) (limit : Nat)
    (searchId : String) (now : Int) (st : AppState) : List SearchResult × AppState :=
  let searchTerms : Option (List String) :=
    match itemType with
    | .x_trend =>
      match db.x_trends with
      | .error _ => none
      | .ok rows => (maybeSingle (rows.filter (fun t => t.id = itemId))).map
          (fun t => [t.trend_name, t.category])
    | .github_repo =>
      match db.github_repos with
      | .error _ => none
      | .ok rows => (maybeSingle (rows.filter (fun t => t.id = itemId))).map
          (fun t => t.language :: t.topics.take 2)
    | .knowledge_entry =>
      match db.knowledge_entries with
      | .error _ => none
      | .ok rows => (maybeSingle (rows.filter (fun t => t.id = itemId))).map
          (fun t => t.category :: t.tags.take 2)
  match searchTerms with
  | none => ([], st)
  | some terms =>
    if terms.isEmpty then ([], st)
    else
      let f : SearchFilters := { query := some (String.intercalate " " terms), limit := some (limit + 5) }
      let out := performUnifiedSearch db f searchId now st
      ((out.1.results.filter (fun r => r.id ≠ itemId)).take limit, out.2)

/-- Metadata column of a trending_scores row. -/
inductive ScoreMeta where
  | xmeta (category url : String)
  | rmeta (language : String) (topics : List String) (url : String)
  deriving DecidableEq, Repr

/-- Row of the trending_scores table; scores are exact rationals (numeric),
the timestamp is epoch seconds. -/
structure ScoreRow where
  item_type : String
  item_id : String
  trending_score : ℚ
  velocity_score : ℚ
  engagement_score : ℚ
  recency_score : ℚ
  calculated_at : Int
  metadata : ScoreMeta
  deriving DecidableEq, Repr

/-- Age of an item in hours at evaluation time, as in the SQL expression
EXTRACT(EPOCH FROM (NOW() - fetched_at)) / 3600.0. -/
def ageHoursAt (now fetched : Int) : ℚ :=
  ((now - fetched : Int) : ℚ) / 3600

/-- The trending_scores row the SQL recompute derives from one x_trends row. -/
def xScoreRow (now : Int) (tr : XTrend) : ScoreRow :=
  let age := ageHoursAt now tr.fetched_at
  let tc : ℚ := tr.tweet_count
  { item_type := "x_trend"
    item_id := tr.id
    trending_score := (tc / 10000 * 0.4 + age * (-0.3) + 50 * 0.3 + tc / max age 1 * 0.3) * 100
    velocity_score := tc / max age 1
    engagement_score := tc
    recency_score := 100 - min age 100
    calculated_at := now
    metadata := .xmeta tr.category tr.url }

/-- The trending_scores row the SQL recompute derives from one github_repos row. -/
def repoScoreRow (now : Int) (rp : GitHubRepo) : ScoreRow :=
  let age := ageHoursAt now rp.fetched_at
  let st : ℚ := rp.stars
  { item_type := "github_repo"
    item_id := rp.id
    trending_score := (st / 1000 * 0.4 + age * (-0.3) + 50 * 0.3 + st / max age 1 * 0.3) * 100
    velocity_score := st / max age 1
    engagement_score := st
    recency_score := 100 - min age 100
    calculated_at := now
    metadata := .rmeta rp.language rp.topics rp.url }

/-- Key of a trending_scores row (the UNIQUE(item_type, item_id) index). -/
def scoreKey (r : ScoreRow) : String × String :=
  (r.item_type, r.item_id)

/-- First row carrying a key, the row a read of the unique key observes. -/
def lookupScore (s : List ScoreRow) (k : String × String) : Option ScoreRow :=
  s.find? (fun r => r.item_type = k.1 ∧ r.item_id = k.2)

/-- INSERT ... ON CONFLICT (item_type, item_id) DO UPDATE for one row:
replace the conflicting row in place, otherwise append. -/
def upsertScore : List ScoreRow → ScoreRow → List ScoreRow
  | [], r => [r]
  | x :: l, r =>
    if x.item_type = r.item_type ∧ x.item_id = r.item_id then r :: l
    else x :: upsertScore l r

/-- calculate_trending_scores: score every x_trends row fetched within seven
days and every github_repos row fetched within thirty days, and upsert the
result rows keyed by (item_type, item_id). -/
def calculate_trending_scores (now : Int) (xs : List XTrend) (rs : List GitHubRepo)
    (store : List ScoreRow) : List ScoreRow :=
  let xrows := (xs.filter (fun tr => now - 7 * 86400 < tr.fetched_at)).map (xScoreRow now)
  let rrows := (rs.filter (fun rp => now - 30 * 86400 < rp.fetched_at)).map (repoScoreRow now)
  (xrows ++ rrows).foldl upsertScore store

/-- Follows the words of the spec, for comparison with the implementation:
trendingScore as one hundred times the weighted sum of the normalized
engagement score, the recency score over one hundred, and the normalized
velocity score, where normalize divides by the source scale constant. -/
def spec_trendingScore (scale engagement recency velocity : ℚ) : ℚ :=
  100 * (0.4 * (engagement / scale) + 0.3 * (recency / 100) + 0.3 * (velocity / scale))

/-- The cached trending score the ranker is claimed to order by: the score
persisted for the item, with items lacking a row treated as score zero. -/
def cachedTrending (cache : List ScoreRow) (r : SearchResult) : ℚ :=
  ((lookupScore cache (typeName r.type, r.id)).map (fun s => s.trending_score)).getD 0

/-- Minutes per day, the rate limiter clock being in minutes. -/
def minutesPerDay : Nat := 1440

/-- Calendar date index of a clock value (minutes since the epoch). -/
def dateOf (t : Nat) : Nat := t / 1440

/-- Hour of day (zero to twenty-three) of a clock value. -/
def hourOfDay (t : Nat) : Nat := t / 60 % 24

/-- First minute of the hour after the one containing the clock value. -/
def startOfNextHour (t : Nat) : Nat := (t / 60 + 1) * 60

/-- First minute of the day after the one containing the clock value. -/
def startOfNextDay (t : Nat) : Nat := (t / 1440 + 1) * 1440

/-- Row of the subscription_tiers table (the columns the limiter reads). -/
structure SubscriptionTier where
  id : String
  tier_name : String
  api_calls_per_hour : Nat
  api_calls_per_day : Nat
  price_monthly : ℚ
  deriving DecidableEq, Repr

/-- Row of the user_subscriptions table (the columns the resolver reads). -/
structure UserSubscription where
  user_id : String
  subscription_tier_id : String
  status : String
  deriving DecidableEq, Repr

/-- getUserSubscriptionTier: the tier referenced by the single active
subscription of the caller, falling back to the row named free when there is
no active subscription or the referenced tier row is absent. -/
def getUserSubscriptionTier (subs : List UserSubscription) (tiers : List SubscriptionTier)
    (userId : String) : Option SubscriptionTier :=
  let freeTier := maybeSingle (tiers.filter (fun t => t.tier_name = "free"))
  match maybeSingle (subs.filter (fun s => s.user_id = userId ∧ s.status = "active")) with
  | none => freeTier
  | some s =>
    match maybeSingle (tiers.filter (fun t => t.id = s.subscription_tier_id)) with
    | none => freeTier
    | some t => some t

/-- Row of the rate_limit_tracker table; the list index in the store plays
the role of created_at, stores being kept in insertion order. -/
structure RateBucket where
  user_id : String
  date : Nat
  hour : Nat
  hourly_count : Nat
  daily_count : Nat
  deriving DecidableEq, Repr

/-- The current-hour bucket of a caller, through the unique
(user_id, date, hour) index. -/
def findBucket (s : List RateBucket) (uid : String) (t : Nat) : Option RateBucket :=
  maybeSingle (s.filter (fun b => b.user_id = uid ∧ b.date = dateOf t ∧ b.hour = hourOfDay t))

/-- All buckets of a caller on a date, in creation order. -/
def bucketsFor (s : List RateBucket) (uid : String) (d : Nat) : List RateBucket :=
  s.filter (fun b => b.user_id = uid ∧ b.date = d)

/-- RateLimitResult from the rate-limiter module. -/
structure RateLimitResult where
  allowed : Bool
  remaining : Nat
  limit : Nat
  resetAt : Nat
  message : Option String := none
  deriving DecidableEq, Repr

/-- checkRateLimit, given the tier the resolver produced: read-only
admission check against the current-hour bucket, zero usage when the bucket
does not exist yet. -/
def checkRateLimit (tier? : Option SubscriptionTier) (s : List RateBucket) (uid : String)
    (t : Nat) : RateLimitResult :=
  match tier? with
  | none =>
    { allowed := false, remaining := 0, limit := 0, resetAt := t
      message := some "Unable to determine subscription tier" }
  | some tier =>
    let tracker := findBucket s uid t
    let hourlyCount := (tracker.map (fun b => b.hourly_count)).getD 0
    let dailyCount := (tracker.map (fun b => b.daily_count)).getD 0
    if tier.api_calls_per_hour ≤ hourlyCount then
      { allowed := false, remaining := 0, limit := tier.api_calls_per_hour
        resetAt := startOfNextHour t
        message := some ("Hourly rate limit exceeded. Limit: " ++
          toString tier.api_calls_per_hour ++ " requests/hour") }
    else if tier.api_calls_per_day ≤ dailyCount then
      { allowed := false, remaining := 0, limit := tier.api_calls_per_day
        resetAt := startOfNextDay t
        message := some ("Daily rate limit exceeded. Limit: " ++
          toString tier.api_calls_per_day ++ " requests/day") }
    else
      { allowed := true
        remaining := min (tier.api_calls_per_hour - hourlyCount)
          (tier.api_calls_per_day - dailyCount)
        limit := tier.api_calls_per_hour
        resetAt := t + 60 }

/-- incrementRateLimit (recordUsage): bump both counters of the current-hour
bucket; when the bucket is absent, create it with the daily count seeded
from the most recently created bucket of the same caller and date, or zero. -/
def incrementRateLimit (s : List RateBucket) (uid : String) (t : Nat) : List RateBucket :=
  match findBucket s uid t with
  | some tracker =>
    s.map (fun b =>
      if b = tracker then
        { b with hourly_count := b.hourly_count + 1, daily_count := b.daily_count + 1 }
      else b)
  | none =>
    let prior := (bucketsFor s uid (dateOf t)).getLast?
    let dailyCount := (prior.map (fun b => b.daily_count)).getD 0
    s ++ [{ user_id := uid, date := dateOf t, hour := hourOfDay t,
            hourly_count := 1, daily_count := dailyCount + 1 }]

/-- What one middleware-wrapped call reports: an admitted call carries the
decremented remaining header, a denied one the denial payload. -/
inductive ApiOutcome where
  | ok (remaining limit resetAt : Nat)
  | denied (remaining limit resetAt : Nat) (message : Option String)
  deriving DecidableEq, Repr

/-- withRateLimit for one request: check, and only when admitted increment
and report the remaining header as the checked value minus one. -/
def apiCall (tier? : Option SubscriptionTier) (s : List RateBucket) (uid : String)
    (t : Nat) : ApiOutcome × List RateBucket :=
  let check := checkRateLimit tier? s uid t
  if check.allowed then
    (ApiOutcome.ok (check.remaining - 1) check.limit check.resetAt, incrementRateLimit s uid t)
  else
    (ApiOutcome.denied check.remaining check.limit check.resetAt check.message, s)

/-- A single-threaded sequence of middleware-wrapped calls. -/
def runCalls (tier? : Option SubscriptionTier) (uid : String) :
    List RateBucket → List Nat → List ApiOutcome
  | _, [] => []
  | s, t :: ts =>
    let r := apiCall tier? s uid t
    r.1 :: runCalls tier? uid r.2 ts

/-- A single-threaded sequence of bare recordUsage calls. -/
def recordUsageAll (uid : String) : List RateBucket → List Nat → List RateBucket
  | s, [] => s
  | s, t :: ts => recordUsageAll uid (incrementRateLimit s uid t) ts

/-- A database whose only content is a list of github_repos rows, with text
matchers that match nothing; fixture for concrete evaluations. -/
def dbOfRepos (rs : List GitHubRepo) : Db :=
  { x_trends := .ok [], github_repos := .ok rs, knowledge_entries := .ok []
    tsX := fun _ _ => false, tsR := fun _ _ => false, tsK := fun _ _ => false }

/-- Fixture repo with the larger star count, listed first by the retriever. -/
def repoA : GitHubRepo :=
  { id := "A", repo_name := "alpha", description := "first repo", stars := 10
    language := "go", url := "uA", topics := [], fetched_at := 0 }

/-- Fixture repo with the smaller star count. -/
def repoB : GitHubRepo :=
  { id := "B", repo_name := "beta", description := "second repo", stars := 5
    language := "rust", url := "uB", topics := [], fetched_at := 0 }

/-- Fixture repo carrying two topics, for the tag-facet sum. -/
def repoT : GitHubRepo :=
  { id := "T", repo_name := "topical", description := "two topics", stars := 3
    language := "go", url := "uT", topics := ["a", "b"], fetched_at := 0 }

/-- Fixture cache of persisted trending scores ranking repo B above repo A. -/
def cacheEx : List ScoreRow :=
  [ { item_type := "github_repo", item_id := "A", trending_score := 10
      velocity_score := 0, engagement_score := 0, recency_score := 0
      calculated_at := 0, metadata := .rmeta "go" [] "uA" },
    { item_type := "github_repo", item_id := "B", trending_score := 80
      velocity_score := 0, engagement_score := 0, recency_score := 0
      calculated_at := 0, metadata := .rmeta "rust" [] "uB" } ]

/-- Fixture x_trends row aged exactly one hour at evaluation time 7200. -/
def xEx : XTrend :=
  { id := "t1", trend_name := "X", tweet_count := 10000, url := "u"
    category := "c", fetched_at := 3600 }

/-- Fixture suggestion row with a large prior usage count. -/
def sugEx : Suggestion :=
  { text := "ai", stype := "tag", usage_count := 200, last_used_at := 0 }

/-- Fixture free tier with the hourly limit ten of the seeded free tier. -/
def freeTierEx : SubscriptionTier :=
  { id := "tier1", tier_name := "free", api_calls_per_hour := 10
    api_calls_per_day := 100, price_monthly := 0 }

/-- Fixture pro tier, referenced by the fixture subscription. -/
def proTierEx : SubscriptionTier :=
  { id := "tier2", tier_name := "pro", api_calls_per_hour := 100
    api_calls_per_day := 1000, price_monthly := 19.99 }

/-- Fixture active subscription of caller u1 referencing the pro tier. -/
def subEx : UserSubscription :=
  { user_id := "u1", subscription_tier_id := "tier2", status := "active" }

/-- Compact rate-limit bucket constructor. -/
def mkBucket (uid : String) (d h hc dc : Nat) : RateBucket :=
  { user_id := uid, date := d, hour := h, hourly_count := hc, daily_count := dc }

/-- A bucket with both counters incremented, the update recordUsage writes. -/
def bumpBucket (b : RateBucket) : RateBucket :=
  { b with hourly_count := b.hourly_count + 1, daily_count := b.daily_count + 1 }

/-- The empty filter set: every filter at its default. -/
def fEmpty : SearchFilters := {}

/-- Filters requesting the trending sort and nothing else. -/
def fTrend : SearchFilters := { sortBy := some SortKey.trending }

/-- Database holding one repo whose x_trends retrieval fails with the given
error detail. -/
def dbErr (e : String) : Db :=
  { dbOfRepos [repoA] with x_trends := .error e }

/-- Sum of the displayed counts of one facet dimension. -/
def facetSum (l : List (String × Nat)) : Nat :=
  (l.map Prod.snd).sum

/-- A maybeSingle hit means the filtered list was exactly that row. -/
theorem maybeSingle_eq_some {β : Type} {l : List β} {x : β} (h : maybeSingle l = some x) :
    l = [x] := by
  match l with
  | [] => simp [maybeSingle] at h
  | [a] => simp [maybeSingle] at h; simp [h]
  | a :: b :: t => simp [maybeSingle] at h

/-- A stable sort leaves a list unchanged when the relation holds between
every ordered pair drawn from it. -/
theorem insertionSort_eq_self_of_all {β : Type} (r : β → β → Prop) [DecidableRel r]
    (l : List β) (h : ∀ a ∈ l, ∀ b ∈ l, r a b) : l.insertionSort r = l := by
  induction l with
  | nil => rfl
  | cons a l ih =>
    rw [List.insertionSort_cons]
    · rw [ih]
      intro x hx y hy
      exact h x (List.mem_cons_of_mem a hx) y (List.mem_cons_of_mem a hy)
    · intro b hb
      exact h a (List.mem_cons_self a l) b (List.mem_cons_of_mem a hb)

/-- The related-items list is empty or a truncated filtering of a search. -/
theorem getRelatedItems_cases (db : Db) (itemId : String) (itemType : ResultType)
    (limit : Nat) (sid : String) (now : Int) (st : AppState) :
    (getRelatedItems db itemId itemType limit sid now st).1 = [] ∨
    ∃ f, (getRelatedItems db itemId itemType limit sid now st).1 =
      ((performUnifiedSearch db f sid now st).1.results.filter
        (fun r => r.id ≠ itemId)).take limit := by
  unfold getRelatedItems
  cases itemType <;>
    cases db.x_trends <;> dsimp only <;> (try split) <;> (try split) <;>
      first | exact Or.inl rfl | exact Or.inr ⟨_, rfl⟩

/-- Claim C10: getRelatedItems never returns the queried item itself and
returns at most the requested limit of results. -/
theorem relatedItems_excludes_self_and_bounded (db : Db) (itemId : String)
    (itemType : ResultType) (limit : Nat) (sid : String) (now : Int) (st : AppState) :
    (∀ r ∈ (getRelatedItems db itemId itemType limit sid now st).1, r.id ≠ itemId) ∧
    (getRelatedItems db itemId itemType limit sid now st).1.length ≤ limit := by
  rcases getRelatedItems_cases db itemId itemType limit sid now st with h | ⟨f, h⟩
  · rw [h]
    simp
  · rw [h]
    constructor
    · intro r hr
      have h2 := List.of_mem_filter (List.take_subset _ _ hr)
      simpa using h2
    · exact le_trans (List.length_take_le limit _) (le_refl limit)

/-- Claim C1: issuing the same non-empty query twice does not leave the
suggestion counter at its prior value plus two; the upsert writes the
constant one, so a prior count of two hundred ends as one after two
identical searches. -/
theorem suggestionUsage_overwritten_on_repeat :
    ((performUnifiedSearch (dbOfRepos []) ({ query := some "ai" }) "s2" 200
        ((performUnifiedSearch (dbOfRepos []) ({ query := some "ai" }) "s1" 100
          ({ suggestions := [sugEx], history := [] })).2)).2.suggestions.map
      (fun s => (s.text, s.usage_count))) = [("ai", 1)] ∧
    sugEx.usage_count = 200 ∧ (1 : Nat) ≠ 200 + 2 := by
  refine ⟨by rfl, by rfl, by decide⟩

/-- Claim C9 counterexample: with no subscription rows and a tier store
lacking a free row, the resolver returns nothing and the admission check
then denies, rather than degrading to a default tier. -/
theorem tier_resolver_missing_free_counterexample :
    getUserSubscriptionTier [] [] "u1" = none ∧
    (checkRateLimit (getUserSubscriptionTier [] [] "u1") [] "u1" 0).allowed = false ∧
    (checkRateLimit (getUserSubscriptionTier [] [] "u1") [] "u1" 0).message =
      some "Unable to determine subscription tier" := by
  refine ⟨rfl, rfl, rfl⟩

/-- Claim C9 amended: with exactly one tier row named free, the resolver
is branch-exact. When the caller's active subscription is the single
matching row and the tier store holds exactly the row it references, that
referenced row is returned; when the referenced tier row is absent, the
free row is returned; when no active subscription row matches, the free
row is returned; and whatever the stores hold, some tier is returned. -/
theorem tier_resolver_branch_exact (subs : List UserSubscription)
    (tiers : List SubscriptionTier) (uid : String) (ft : SubscriptionTier)
    (hfree : tiers.filter (fun t => t.tier_name = "free") = [ft]) :
    (∀ (s : UserSubscription) (t : SubscriptionTier),
       subs.filter (fun s => s.user_id = uid ∧ s.status = "active") = [s] →
       tiers.filter (fun t2 => t2.id = s.subscription_tier_id) = [t] →
       getUserSubscriptionTier subs tiers uid = some t) ∧
    (∀ s : UserSubscription,
       subs.filter (fun s => s.user_id = uid ∧ s.status = "active") = [s] →
       tiers.filter (fun t2 => t2.id = s.subscription_tier_id) = [] →
       getUserSubscriptionTier subs tiers uid = some ft) ∧
    (subs.filter (fun s => s.user_id = uid ∧ s.status = "active") = [] →
       getUserSubscriptionTier subs tiers uid = some ft) ∧
    (∃ t2, getUserSubscriptionTier subs tiers uid = some t2) := by
  refine ⟨?_, ?_, ?_, ?_⟩
  · intro s t hs ht
    unfold getUserSubscriptionTier
    rw [hfree, hs]
    show (match maybeSingle (tiers.filter (fun t2 => t2.id = s.subscription_tier_id)) with
      | none => maybeSingle [ft]
      | some t2 => some t2) = some t
    rw [ht]
    rfl
  · intro s hs ht
    unfold getUserSubscriptionTier
    rw [hfree, hs]
    show (match maybeSingle (tiers.filter (fun t2 => t2.id = s.subscription_tier_id)) with
      | none => maybeSingle [ft]
      | some t2 => some t2) = some ft
    rw [ht]
    rfl
  · intro hs
    unfold getUserSubscriptionTier
    rw [hfree, hs]
    rfl
  · unfold getUserSubscriptionTier
    rw [hfree]
    split
    · exact ⟨ft, rfl⟩
    · split
      · exact ⟨ft, rfl⟩
      · next t ht => exact ⟨t, rfl⟩

/-- Claim C9 amended, witness: caller u1 with an active subscription to the
pro tier resolves to the pro tier, and with no subscription rows resolves
to the free tier. -/
theorem tier_resolver_branch_exact_witness :
    getUserSubscriptionTier [subEx] [freeTierEx, proTierEx] "u1" = some proTierEx ∧
    getUserSubscriptionTier [] [freeTierEx, proTierEx] "u1" = some freeTierEx := by
  refine ⟨?_, ?_⟩
  · exact (tier_resolver_branch_exact [subEx] [freeTierEx, proTierEx] "u1" freeTierEx
      rfl).1 subEx proTierEx rfl rfl
  · exact (tier_resolver_branch_exact [] [freeTierEx, proTierEx] "u1" freeTierEx
      rfl).2.2.1 rfl

/-- Rebuilding a search response from equal retriever outputs gives equal
responses; the response depends on the database only through them. -/
theorem performUnifiedSearch_congr (db1 db2 : Db) (f : SearchFilters) (sid : String)
    (now : Int) (st : AppState)
    (h1 : searchXTrends db1 f = searchXTrends db2 f)
    (h2 : searchGitHubRepos db1 f = searchGitHubRepos db2 f)
    (h3 : searchKnowledgeEntries db1 f = searchKnowledgeEntries db2 f) :
    performUnifiedSearch db1 f sid now st = performUnifiedSearch db2 f sid now st := by
  unfold performUnifiedSearch
  rw [h1, h2, h3]

/-- A failing x_trends read contributes no results. -/
theorem searchXTrends_error (db : Db) (e : String) (f : SearchFilters) :
    searchXTrends { db with x_trends := .error e } f = [] := rfl

/-- An empty x_trends table contributes no results. -/
theorem searchXTrends_ok_nil (db : Db) (f : SearchFilters) :
    searchXTrends { db with x_trends := .ok [] } f = [] := by
  unfold searchXTrends
  dsimp only
  rcases strTruthy f.query with _ | q <;>
    rcases listNonempty f.categories with _ | cs <;>
    rcases f.dateFrom with _ | d1 <;>
    rcases f.dateTo with _ | d2 <;>
    rcases natTruthy f.minEngagement with _ | m <;>
    rfl

/-- A failing github_repos read contributes no results. -/
theorem searchGitHubRepos_error (db : Db) (e : String) (f : SearchFilters) :
    searchGitHubRepos { db with github_repos := .error e } f = [] := rfl

/-- An empty github_repos table contributes no results. -/
theorem searchGitHubRepos_ok_nil (db : Db) (f : SearchFilters) :
    searchGitHubRepos { db with github_repos := .ok [] } f = [] := by
  unfold searchGitHubRepos
  dsimp only
  rcases strTruthy f.query with _ | q <;>
    rcases listNonempty f.languages with _ | ls <;>
    rcases listNonempty f.tags with _ | ts <;>
    rcases f.dateFrom with _ | d1 <;>
    rcases f.dateTo with _ | d2 <;>
    rcases natTruthy f.minEngagement with _ | m <;>
    rfl

/-- A failing knowledge_entries read contributes no results. -/
theorem searchKnowledgeEntries_error (db : Db) (e : String) (f : SearchFilters) :
    searchKnowledgeEntries { db with knowledge_entries := .error e } f = [] := rfl

/-- An empty knowledge_entries table contributes no results. -/
theorem searchKnowledgeEntries_ok_nil (db : Db) (f : SearchFilters) :
    searchKnowledgeEntries { db with knowledge_entries := .ok [] } f = [] := by
  unfold searchKnowledgeEntries
  dsimp only
  rcases strTruthy f.query with _ | q <;>
    rcases listNonempty f.categories with _ | cs <;>
    rcases listNonempty f.tags with _ | ts <;>
    rcases f.dateFrom with _ | d1 <;>
    rcases f.dateTo with _ | d2 <;>
    rfl

/-- Claim C5 counterexample: two searches whose x_trends retriever fails
with different error details produce identical responses and identical
state, and both coincide with the response of an empty x_trends table; no
component of the response records the error detail. -/
theorem retrieverError_detail_not_in_response_counterexample :
    performUnifiedSearch (dbErr "boom") fEmpty "s" 0 ({ suggestions := [], history := [] }) =
      performUnifiedSearch (dbErr "other") fEmpty "s" 0 ({ suggestions := [], history := [] }) ∧
    ("boom" : String) ≠ "other" ∧
    performUnifiedSearch (dbErr "boom") fEmpty "s" 0 ({ suggestions := [], history := [] }) =
      performUnifiedSearch ({ dbOfRepos [repoA] with x_trends := .ok [] }) fEmpty "s" 0
        ({ suggestions := [], history := [] }) := by
  refine ⟨rfl, by decide, rfl⟩

/-- Claim C5 amended: a failing retriever degrades its source to the empty
result set and the search still returns a response, but the error detail is
only logged, not attached: the response and state equal those of an empty
source store. -/
theorem retrieverError_degrades_to_empty (e : String) (db : Db) (f : SearchFilters)
    (sid : String) (now : Int) (st : AppState) :
    searchXTrends { db with x_trends := .error e } f = [] ∧
    performUnifiedSearch { db with x_trends := .error e } f sid now st =
      performUnifiedSearch { db with x_trends := .ok [] } f sid now st ∧
    searchGitHubRepos { db with github_repos := .error e } f = [] ∧
    performUnifiedSearch { db with github_repos := .error e } f sid now st =
      performUnifiedSearch { db with github_repos := .ok [] } f sid now st ∧
    searchKnowledgeEntries { db with knowledge_entries := .error e } f = [] ∧
    performUnifiedSearch { db with knowledge_entries := .error e } f sid now st =
      performUnifiedSearch { db with knowledge_entries := .ok [] } f sid now st := by
  refine ⟨searchXTrends_error db e f, ?_, searchGitHubRepos_error db e f, ?_,
    searchKnowledgeEntries_error db e f, ?_⟩
  · exact performUnifiedSearch_congr _ _ f sid now st
      ((searchXTrends_error db e f).trans (searchXTrends_ok_nil db f).symm) rfl rfl
  · exact performUnifiedSearch_congr _ _ f sid now st rfl
      ((searchGitHubRepos_error db e f).trans (searchGitHubRepos_ok_nil db f).symm) rfl
  · exact performUnifiedSearch_congr _ _ f sid now st rfl rfl
      ((searchKnowledgeEntries_error db e f).trans (searchKnowledgeEntries_ok_nil db f).symm)

/-- Every result projected by the x_trends retriever lacks a trending score. -/
theorem searchXTrends_trendingScore_none (db : Db) (f : SearchFilters) :
    ∀ r ∈ searchXTrends db f, r.trendingScore = none := by
  intro r hr
  unfold searchXTrends at hr
  revert hr
  cases db.x_trends <;> dsimp only <;> intro hr
  · simp at hr
  · obtain ⟨x, hx, rfl⟩ := List.mem_map.mp hr
    rfl

/-- Every result projected by the github_repos retriever lacks a trending score. -/
theorem searchGitHubRepos_trendingScore_none (db : Db) (f : SearchFilters) :
    ∀ r ∈ searchGitHubRepos db f, r.trendingScore = none := by
  intro r hr
  unfold searchGitHubRepos at hr
  revert hr
  cases db.github_repos <;> dsimp only <;> intro hr
  · simp at hr
  · obtain ⟨x, hx, rfl⟩ := List.mem_map.mp hr
    rfl

/-- Every result projected by the knowledge retriever lacks a trending score. -/
theorem searchKnowledgeEntries_trendingScore_none (db : Db) (f : SearchFilters) :
    ∀ r ∈ searchKnowledgeEntries db f, r.trendingScore = none := by
  intro r hr
  unfold searchKnowledgeEntries at hr
  revert hr
  cases db.knowledge_entries <;> dsimp only <;> intro hr
  · simp at hr
  · obtain ⟨x, hx, rfl⟩ := List.mem_map.mp hr
    rfl

/-- No result of a merged retriever output carries a trending score. -/
theorem merged_trendingScore_none (db : Db) (f : SearchFilters)
    (c1 c2 c3 : Prop) [Decidable c1] [Decidable c2] [Decidable c3] :
    ∀ r ∈ ((if c1 then searchXTrends db f else []) ++
        (if c2 then searchGitHubRepos db f else []) ++
        (if c3 then searchKnowledgeEntries db f else [])), r.trendingScore = none := by
  intro r hr
  rcases List.mem_append.mp hr with h | h
  · rcases List.mem_append.mp h with h2 | h2
    · split at h2
      · exact searchXTrends_trendingScore_none db f r h2
      · simp at h2
    · split at h2
      · exact searchGitHubRepos_trendingScore_none db f r h2
      · simp at h2
  · split at h
    · exact searchKnowledgeEntries_trendingScore_none db f r h
    · simp at h

/-- The trending sort leaves a list unchanged when no element carries a
trending score: every key is the default zero and the stable sort keeps the
merge order. -/
theorem applySorting_trending_of_none (l : List SearchResult)
    (h : ∀ r ∈ l, r.trendingScore = none) : applySorting l SortKey.trending = l := by
  show sortDescQ (fun r => r.trendingScore.getD 0) l = l
  unfold sortDescQ
  apply insertionSort_eq_self_of_all
  intro a ha b hb
  simp [h a ha, h b hb]

/-- The trending sort of a merged retriever output is the identity. -/
theorem applySorting_trending_merged (db : Db) (f : SearchFilters)
    (c1 c2 c3 : Prop) [Decidable c1] [Decidable c2] [Decidable c3] :
    applySorting ((if c1 then searchXTrends db f else []) ++
        (if c2 then searchGitHubRepos db f else []) ++
        (if c3 then searchKnowledgeEntries db f else [])) SortKey.trending =
      ((if c1 then searchXTrends db f else []) ++
        (if c2 then searchGitHubRepos db f else []) ++
        (if c3 then searchKnowledgeEntries db f else [])) :=
  applySorting_trending_of_none _ (merged_trendingScore_none db f c1 c2 c3)

/-- Claim C3 counterexample: with cached scores ranking item B above item A,
a trending-sorted unified search still returns A first, because the
retriever projections never attach the cached score; the returned order is
not descending in the persisted trending score. -/
theorem trendingSort_ignores_cached_scores_counterexample :
    ((performUnifiedSearch (dbOfRepos [repoA, repoB]) fTrend "s" 0
        ({ suggestions := [], history := [] })).1.results.map (fun r => r.id)) = ["A", "B"] ∧
    ((performUnifiedSearch (dbOfRepos [repoA, repoB]) fTrend "s" 0
        ({ suggestions := [], history := [] })).1.results.map
      (fun r => cachedTrending cacheEx r)) = [10, 80] ∧
    ¬ List.Pairwise (fun a b : ℚ => b ≤ a)
      ((performUnifiedSearch (dbOfRepos [repoA, repoB]) fTrend "s" 0
        ({ suggestions := [], history := [] })).1.results.map
        (fun r => cachedTrending cacheEx r)) := by
  refine ⟨rfl, rfl, ?_⟩
  intro h
  rw [show ((performUnifiedSearch (dbOfRepos [repoA, repoB]) fTrend "s" 0
      ({ suggestions := [], history := [] })).1.results.map
      (fun r => cachedTrending cacheEx r)) = [10, 80] from rfl] at h
  have h80 : (80 : ℚ) ≤ 10 := by
    have := List.pairwise_cons.mp h
    simpa using this.1
  norm_num at h80

/-- Claim C3 amended: with sortBy trending the unified search sorts by the
trendingScore field of the merged projections, which is always absent, so
the response coincides with the relevance response: the cached scores are
never consulted and the merge order is returned. -/
theorem trendingSort_is_merge_order (db : Db) (f : SearchFilters) (sid : String)
    (now : Int) (st : AppState) :
    (∀ r ∈ (performUnifiedSearch db { f with sortBy := some SortKey.trending }
        sid now st).1.results, r.trendingScore = none) ∧
    (performUnifiedSearch db { f with sortBy := some SortKey.trending } sid now st).1 =
      (performUnifiedSearch db { f with sortBy := some SortKey.relevance } sid now st).1 := by
  constructor
  · intro r hr
    revert hr
    unfold performUnifiedSearch
    dsimp only
    simp only [Option.getD_some]
    intro hr
    have h1 : r ∈ applySorting _ SortKey.trending :=
      List.drop_subset _ _ (List.take_subset _ _ hr)
    rw [applySorting_trending_merged] at h1
    exact merged_trendingScore_none db _ _ _ _ r h1
  · unfold performUnifiedSearch
    dsimp only
    simp only [Option.getD_some]
    rw [applySorting_trending_merged]
    rfl

/-- One bump adds exactly one to the summed counts. -/
theorem sum_map_snd_bump (m : List (String × Nat)) (s : String) :
    ((bump m s).map Prod.snd).sum = ((m.map Prod.snd).sum) + 1 := by
  induction m with
  | nil => rfl
  | cons p l ih =>
    rcases p with ⟨t, c⟩
    unfold bump
    split
    · simp
      try omega
    · simp [ih]
      try omega

/-- Folding bumps over a list grows the summed counts by at most its length. -/
theorem sum_tallyOpt_aux {β : Type} (f : β → Option String) :
    ∀ (l : List β) (m : List (String × Nat)),
      (((l.foldl (fun m x => match f x with | some s => bump m s | none => m) m).map
        Prod.snd).sum) ≤ ((m.map Prod.snd).sum) + l.length := by
  intro l
  induction l with
  | nil => simp
  | cons x l ih =>
    intro m
    rw [List.foldl_cons]
    refine le_trans (ih _) ?_
    rcases hfx : f x with _ | s
    · simp
      try omega
    · simp [sum_map_snd_bump]
      try omega

/-- Each item contributes at most one to a scalar-attribute tally. -/
theorem sum_tallyOpt_le {β : Type} (f : β → Option String) (l : List β) :
    ((tallyOpt f l).map Prod.snd).sum ≤ l.length := by
  have h := sum_tallyOpt_aux f l []
  simpa [tallyOpt] using h

/-- Sorting and truncating a count map cannot grow the summed counts. -/
theorem facetSum_sortDescN_take (m : List (String × Nat)) (k : Nat) :
    facetSum ((sortDescN (fun p => p.2) m).take k) ≤ facetSum m := by
  have hsum : facetSum (sortDescN (fun p => p.2) m) = facetSum m :=
    ((List.perm_insertionSort _ m).map Prod.snd).sum_eq
  have htake : facetSum ((sortDescN (fun p => p.2) m).take k) ≤
      facetSum (sortDescN (fun p => p.2) m) := by
    unfold facetSum
    conv_rhs => rw [← List.take_append_drop k (sortDescN (fun p => p.2) m)]
    rw [List.map_append, List.sum_append]
    exact Nat.le_add_right _ _
  rw [hsum] at htake
  exact htake

/-- A displayed scalar facet dimension sums to at most the tallied list
length. -/
theorem facetSum_dimension_le {β : Type} (f : β → Option String) (l : List β) (k : Nat) :
    facetSum ((sortDescN (fun p => p.2) (tallyOpt f l)).take k) ≤ l.length :=
  le_trans (facetSum_sortDescN_take _ k) (sum_tallyOpt_le f l)

/-- The untruncated source facet dimension sums to at most the tallied list
length. -/
theorem facetSum_sources_le {β : Type} (f : β → Option String) (l : List β) :
    facetSum (sortDescN (fun p => p.2) (tallyOpt f l)) ≤ l.length := by
  have hsum : facetSum (sortDescN (fun p => p.2) (tallyOpt f l)) = facetSum (tallyOpt f l) :=
    ((List.perm_insertionSort _ _).map Prod.snd).sum_eq
  rw [hsum]
  exact sum_tallyOpt_le f l

/-- Claim C4 counterexample: one repo carrying two topics makes the tag
facet counts sum to two while the response total is one; the facet sum
bound fails on the tag dimension. -/
theorem facetSum_tags_exceeds_total_counterexample :
    (performUnifiedSearch (dbOfRepos [repoT]) fEmpty "s" 0
      ({ suggestions := [], history := [] })).1.total = 1 ∧
    facetSum (performUnifiedSearch (dbOfRepos [repoT]) fEmpty "s" 0
      ({ suggestions := [], history := [] })).1.facets.tags = 2 ∧
    ¬ facetSum (performUnifiedSearch (dbOfRepos [repoT]) fEmpty "s" 0
        ({ suggestions := [], history := [] })).1.facets.tags ≤
      (performUnifiedSearch (dbOfRepos [repoT]) fEmpty "s" 0
        ({ suggestions := [], history := [] })).1.total := by
  refine ⟨rfl, rfl, ?_⟩
  intro h
  rw [show (performUnifiedSearch (dbOfRepos [repoT]) fEmpty "s" 0
      ({ suggestions := [], history := [] })).1.total = 1 from rfl,
    show facetSum (performUnifiedSearch (dbOfRepos [repoT]) fEmpty "s" 0
      ({ suggestions := [], history := [] })).1.facets.tags = 2 from rfl] at h
  omega

/-- Claim C4 amended: for the category, language and source dimensions the
displayed facet counts sum to at most the response total; the tag dimension
is exempt because one item contributes once per tag. -/
theorem facetSum_bounded_for_scalar_dimensions (db : Db) (f : SearchFilters)
    (sid : String) (now : Int) (st : AppState) :
    facetSum (performUnifiedSearch db f sid now st).1.facets.categories ≤
      (performUnifiedSearch db f sid now st).1.total ∧
    facetSum (performUnifiedSearch db f sid now st).1.facets.languages ≤
      (performUnifiedSearch db f sid now st).1.total ∧
    facetSum (performUnifiedSearch db f sid now st).1.facets.sources ≤
      (performUnifiedSearch db f sid now st).1.total := by
  unfold performUnifiedSearch calculateFacets
  dsimp only
  exact ⟨facetSum_dimension_le _ _ 10, facetSum_dimension_le _ _ 15, facetSum_sources_le _ _⟩

/-- After upserting a row, reading its key yields exactly that row. -/
theorem lookupScore_upsert_self (s : List ScoreRow) (r : ScoreRow) :
    lookupScore (upsertScore s r) (scoreKey r) = some r := by
  induction s with
  | nil => simp [upsertScore, lookupScore, scoreKey]
  | cons x l ih =>
    unfold upsertScore
    split
    · simp [lookupScore, scoreKey]
    · next hne =>
      unfold lookupScore at ih ⊢
      rw [List.find?_cons_of_neg, ih]
      simpa [scoreKey] using hne

/-- Upserting a row leaves every other key unchanged. -/
theorem lookupScore_upsert_other (s : List ScoreRow) (r : ScoreRow) (k : String × String)
    (hk : k ≠ scoreKey r) :
    lookupScore (upsertScore s r) k = lookupScore s k := by
  have hrk : ¬ (r.item_type = k.1 ∧ r.item_id = k.2) := by
    intro hcon
    apply hk
    rcases k with ⟨k1, k2⟩
    simp [scoreKey]
    exact ⟨hcon.1.symm, hcon.2.symm⟩
  induction s with
  | nil =>
    show lookupScore [r] k = lookupScore [] k
    unfold lookupScore
    rw [List.find?_cons_of_neg]
    simpa using hrk
  | cons x l ih =>
    unfold upsertScore
    split
    · next heq =>
      have hxk : ¬ (x.item_type = k.1 ∧ x.item_id = k.2) := by
        intro hcon
        exact hrk ⟨heq.1 ▸ hcon.1, heq.2 ▸ hcon.2⟩
      unfold lookupScore
      rw [List.find?_cons_of_neg, List.find?_cons_of_neg]
      · simpa using hxk
      · simpa using hrk
    · unfold lookupScore at ih ⊢
      by_cases hxk : x.item_type = k.1 ∧ x.item_id = k.2
      · rw [List.find?_cons_of_pos, List.find?_cons_of_pos] <;> simpa using hxk
      · rw [List.find?_cons_of_neg, List.find?_cons_of_neg, ih] <;> simpa using hxk

/-- Folding upserts whose keys avoid a key leaves that key unchanged. -/
theorem lookupScore_foldl_not_mem (R : List ScoreRow) (s : List ScoreRow)
    (k : String × String) (hk : k ∉ R.map scoreKey) :
    lookupScore (R.foldl upsertScore s) k = lookupScore s k := by
  induction R generalizing s with
  | nil => rfl
  | cons a R ih =>
    rw [List.foldl_cons]
    rw [List.map_cons] at hk
    rw [ih _ (fun hmem => hk (List.mem_cons_of_mem _ hmem))]
    exact lookupScore_upsert_other s a k (fun he => hk (he ▸ List.mem_cons_self _ _))

/-- After a fold of upserts with pairwise distinct keys, each written key
reads back exactly its row. -/
theorem lookupScore_foldl_mem (R : List ScoreRow) (s : List ScoreRow) (r : ScoreRow)
    (hnodup : (R.map scoreKey).Nodup) (hr : r ∈ R) :
    lookupScore (R.foldl upsertScore s) (scoreKey r) = some r := by
  induction R generalizing s with
  | nil => cases hr
  | cons a R ih =>
    rw [List.foldl_cons]
    rw [List.map_cons, List.nodup_cons] at hnodup
    rcases List.mem_cons.mp hr with rfl | hr2
    · rw [lookupScore_foldl_not_mem R _ _ hnodup.1]
      exact lookupScore_upsert_self s r
    · exact ih _ hnodup.2 hr2

/-- Upserting a row that already sits at its key is the identity. -/
theorem upsertScore_eq_of_lookup (s : List ScoreRow) (r : ScoreRow)
    (h : lookupScore s (scoreKey r) = some r) : upsertScore s r = s := by
  induction s with
  | nil => simp [lookupScore] at h
  | cons x l ih =>
    unfold upsertScore
    split
    · next heq =>
      unfold lookupScore at h
      rw [List.find?_cons_of_pos] at h
      · simp at h
        rw [h]
      · simpa [scoreKey] using heq
    · next hne =>
      unfold lookupScore at h ih
      rw [List.find?_cons_of_neg] at h
      · rw [ih h]
      · simpa [scoreKey] using hne

/-- A fold of upserts over rows all already present is the identity. -/
theorem foldl_upsertScore_id (R : List ScoreRow) (s : List ScoreRow)
    (h : ∀ r ∈ R, lookupScore s (scoreKey r) = some r) :
    R.foldl upsertScore s = s := by
  induction R with
  | nil => rfl
  | cons a R ih =>
    rw [List.foldl_cons, upsertScore_eq_of_lookup s a (h a (List.mem_cons_self a R)),
      ih (fun r hr => h r (List.mem_cons_of_mem a hr))]

/-- The keys written by one recompute run are pairwise distinct when the
per-table primary keys are. -/
theorem calc_keys_nodup (now : Int) (xs : List XTrend) (rs : List GitHubRepo)
    (hx : (xs.map XTrend.id).Nodup) (hr : (rs.map GitHubRepo.id).Nodup) :
    ((((xs.filter (fun tr => now - 7 * 86400 < tr.fetched_at)).map (xScoreRow now)) ++
      ((rs.filter (fun rp => now - 30 * 86400 < rp.fetched_at)).map (repoScoreRow now))).map
        scoreKey).Nodup := by
  rw [List.map_append, List.map_map, List.map_map]
  have hxids : ((xs.filter (fun tr => now - 7 * 86400 < tr.fetched_at)).map XTrend.id).Nodup :=
    ((List.filter_sublist xs).map XTrend.id).nodup hx
  have hrids : ((rs.filter (fun rp => now - 30 * 86400 < rp.fetched_at)).map
      GitHubRepo.id).Nodup := ((List.filter_sublist rs).map GitHubRepo.id).nodup hr
  have hxkeys : ((xs.filter (fun tr => now - 7 * 86400 < tr.fetched_at)).map
      (scoreKey ∘ xScoreRow now)).Nodup := by
    have : (scoreKey ∘ xScoreRow now) =
        (fun i => (("x_trend" : String), i)) ∘ XTrend.id := rfl
    rw [this, ← List.map_map]
    exact hxids.map (fun a b hab => by simpa using hab)
  have hrkeys : ((rs.filter (fun rp => now - 30 * 86400 < rp.fetched_at)).map
      (scoreKey ∘ repoScoreRow now)).Nodup := by
    have : (scoreKey ∘ repoScoreRow now) =
        (fun i => (("github_repo" : String), i)) ∘ GitHubRepo.id := rfl
    rw [this, ← List.map_map]
    exact hrids.map (fun a b hab => by simpa using hab)
  refine List.Nodup.append hxkeys hrkeys ?_
  intro k hk1 hk2
  obtain ⟨a, _, rfl⟩ := List.mem_map.mp hk1
  obtain ⟨b, _, hb⟩ := List.mem_map.mp hk2
  have : ("github_repo" : String) = "x_trend" := congrArg Prod.fst hb
  simp at this

/-- Claim C8: with the per-table primary keys distinct, rerunning the
trending recompute at the same evaluation time on unchanged inputs leaves
the score store exactly as one run leaves it. -/
theorem trending_recompute_idempotent (now : Int) (xs : List XTrend)
    (rs : List GitHubRepo) (store : List ScoreRow)
    (hx : (xs.map XTrend.id).Nodup) (hr : (rs.map GitHubRepo.id).Nodup) :
    calculate_trending_scores now xs rs (calculate_trending_scores now xs rs store) =
      calculate_trending_scores now xs rs store := by
  unfold calculate_trending_scores
  dsimp only
  apply foldl_upsertScore_id
  intro r hrR
  exact lookupScore_foldl_mem _ _ _ (calc_keys_nodup now xs rs hx hr) hrR

/-- Claim C8 witness: the recompute over one fixture trend is idempotent. -/
theorem trending_recompute_idempotent_witness :
    calculate_trending_scores 7200 [xEx] [] (calculate_trending_scores 7200 [xEx] [] []) =
      calculate_trending_scores 7200 [xEx] [] [] :=
  trending_recompute_idempotent 7200 [xEx] [] [] (by decide) (by decide)

/-- For a nonnegative age the implemented recency expression coincides with
the clamp of one hundred minus the age to the interval from zero to one
hundred. -/
theorem recency_clamp (a : ℚ) (h : 0 ≤ a) :
    100 - min a 100 = min (max (100 - a) 0) 100 := by
  rcases le_total a 100 with h1 | h1
  · rw [min_eq_left h1, max_eq_left (by linarith), min_eq_left (by linarith)]
  · rw [min_eq_right h1, max_eq_right (by linarith), min_eq_left (by norm_num)]
    norm_num

/-- An item no newer than the evaluation time has nonnegative age. -/
theorem ageHoursAt_nonneg (now fetched : Int) (h : fetched ≤ now) :
    0 ≤ ageHoursAt now fetched := by
  unfold ageHoursAt
  apply div_nonneg _ (by norm_num)
  exact_mod_cast Int.sub_nonneg.mpr h

/-- The row computed for an x_trends item, rewritten in the shape of the
amended claim: unnormalized velocity term and linear recency term. -/
theorem xScoreRow_fields (now : Int) (tr : XTrend) (hage : tr.fetched_at ≤ now) :
    xScoreRow now tr =
      { item_type := "x_trend", item_id := tr.id
        trending_score := 100 * (0.4 * ((tr.tweet_count : ℚ) / 10000) +
          0.3 * (50 - ageHoursAt now tr.fetched_at) +
          0.3 * ((tr.tweet_count : ℚ) / max (ageHoursAt now tr.fetched_at) 1))
        velocity_score := (tr.tweet_count : ℚ) / max (ageHoursAt now tr.fetched_at) 1
        engagement_score := (tr.tweet_count : ℚ)
        recency_score := min (max (100 - ageHoursAt now tr.fetched_at) 0) 100
        calculated_at := now
        metadata := ScoreMeta.xmeta tr.category tr.url } := by
  unfold xScoreRow
  dsimp only
  rw [ScoreRow.mk.injEq]
  refine ⟨rfl, rfl, by ring, rfl, rfl, ?_, rfl, rfl⟩
  exact recency_clamp _ (ageHoursAt_nonneg now tr.fetched_at hage)

/-- The row computed for a github_repos item, in the amended shape. -/
theorem repoScoreRow_fields (now : Int) (rp : GitHubRepo) (hage : rp.fetched_at ≤ now) :
    repoScoreRow now rp =
      { item_type := "github_repo", item_id := rp.id
        trending_score := 100 * (0.4 * ((rp.stars : ℚ) / 1000) +
          0.3 * (50 - ageHoursAt now rp.fetched_at) +
          0.3 * ((rp.stars : ℚ) / max (ageHoursAt now rp.fetched_at) 1))
        velocity_score := (rp.stars : ℚ) / max (ageHoursAt now rp.fetched_at) 1
        engagement_score := (rp.stars : ℚ)
        recency_score := min (max (100 - ageHoursAt now rp.fetched_at) 0) 100
        calculated_at := now
        metadata := ScoreMeta.rmeta rp.language rp.topics rp.url } := by
  unfold repoScoreRow
  dsimp only
  rw [ScoreRow.mk.injEq]
  refine ⟨rfl, rfl, by ring, rfl, rfl, ?_, rfl, rfl⟩
  exact recency_clamp _ (ageHoursAt_nonneg now rp.fetched_at hage)

/-- Claim C2 amended: within the retention window and for items no newer
than the evaluation time, the recompute stores velocityScore equal to
engagement over the age floored at one hour, recencyScore equal to the
claimed clamp, and trendingScore equal to one hundred times the weighted
sum whose recency term is three tenths of fifty minus the age and whose
velocity term is three tenths of the unnormalized velocity. -/
theorem trendingScore_formula_as_implemented (now : Int) (xs : List XTrend)
    (rs : List GitHubRepo) (store : List ScoreRow)
    (hx : (xs.map XTrend.id).Nodup) (hr : (rs.map GitHubRepo.id).Nodup) :
    (∀ tr ∈ xs, now - 7 * 86400 < tr.fetched_at → tr.fetched_at ≤ now →
      lookupScore (calculate_trending_scores now xs rs store) ("x_trend", tr.id) =
        some { item_type := "x_trend", item_id := tr.id
               trending_score := 100 * (0.4 * ((tr.tweet_count : ℚ) / 10000) +
                 0.3 * (50 - ageHoursAt now tr.fetched_at) +
                 0.3 * ((tr.tweet_count : ℚ) / max (ageHoursAt now tr.fetched_at) 1))
               velocity_score := (tr.tweet_count : ℚ) / max (ageHoursAt now tr.fetched_at) 1
               engagement_score := (tr.tweet_count : ℚ)
               recency_score := min (max (100 - ageHoursAt now tr.fetched_at) 0) 100
               calculated_at := now
               metadata := ScoreMeta.xmeta tr.category tr.url }) ∧
    (∀ rp ∈ rs, now - 30 * 86400 < rp.fetched_at → rp.fetched_at ≤ now →
      lookupScore (calculate_trending_scores now xs rs store) ("github_repo", rp.id) =
        some { item_type := "github_repo", item_id := rp.id
               trending_score := 100 * (0.4 * ((rp.stars : ℚ) / 1000) +
                 0.3 * (50 - ageHoursAt now rp.fetched_at) +
                 0.3 * ((rp.stars : ℚ) / max (ageHoursAt now rp.fetched_at) 1))
               velocity_score := (rp.stars : ℚ) / max (ageHoursAt now rp.fetched_at) 1
               engagement_score := (rp.stars : ℚ)
               recency_score := min (max (100 - ageHoursAt now rp.fetched_at) 0) 100
               calculated_at := now
               metadata := ScoreMeta.rmeta rp.language rp.topics rp.url }) := by
  constructor
  · intro tr htr hwin hage
    have hmem : xScoreRow now tr ∈
        ((xs.filter (fun tr => now - 7 * 86400 < tr.fetched_at)).map (xScoreRow now)) ++
        ((rs.filter (fun rp => now - 30 * 86400 < rp.fetched_at)).map (repoScoreRow now)) :=
      List.mem_append_left _
        (List.mem_map_of_mem _ (List.mem_filter.mpr ⟨htr, by simpa using hwin⟩))
    have hlook := lookupScore_foldl_mem _ store _ (calc_keys_nodup now xs rs hx hr) hmem
    have hkey : scoreKey (xScoreRow now tr) = ("x_trend", tr.id) := rfl
    rw [hkey] at hlook
    show lookupScore
      ((((xs.filter (fun tr => now - 7 * 86400 < tr.fetched_at)).map (xScoreRow now)) ++
        ((rs.filter (fun rp => now - 30 * 86400 < rp.fetched_at)).map
          (repoScoreRow now))).foldl upsertScore store) ("x_trend", tr.id) = _
    rw [hlook, xScoreRow_fields now tr hage]
  · intro rp hrp hwin hage
    have hmem : repoScoreRow now rp ∈
        ((xs.filter (fun tr => now - 7 * 86400 < tr.fetched_at)).map (xScoreRow now)) ++
        ((rs.filter (fun rp => now - 30 * 86400 < rp.fetched_at)).map (repoScoreRow now)) :=
      List.mem_append_right _
        (List.mem_map_of_mem _ (List.mem_filter.mpr ⟨hrp, by simpa using hwin⟩))
    have hlook := lookupScore_foldl_mem _ store _ (calc_keys_nodup now xs rs hx hr) hmem
    have hkey : scoreKey (repoScoreRow now rp) = ("github_repo", rp.id) := rfl
    rw [hkey] at hlook
    show lookupScore
      ((((xs.filter (fun tr => now - 7 * 86400 < tr.fetched_at)).map (xScoreRow now)) ++
        ((rs.filter (fun rp => now - 30 * 86400 < rp.fetched_at)).map
          (repoScoreRow now))).foldl upsertScore store) ("github_repo", rp.id) = _
    rw [hlook, repoScoreRow_fields now rp hage]

/-- Claim C2 amended, witness: the fixture trend aged one hour at evaluation
time seventy-two hundred is stored with the implemented formula values. -/
theorem trendingScore_formula_as_implemented_witness :
    lookupScore (calculate_trending_scores 7200 [xEx] [] []) ("x_trend", xEx.id) =
      some { item_type := "x_trend", item_id := xEx.id
             trending_score := 100 * (0.4 * ((xEx.tweet_count : ℚ) / 10000) +
               0.3 * (50 - ageHoursAt 7200 xEx.fetched_at) +
               0.3 * ((xEx.tweet_count : ℚ) / max (ageHoursAt 7200 xEx.fetched_at) 1))
             velocity_score := (xEx.tweet_count : ℚ) / max (ageHoursAt 7200 xEx.fetched_at) 1
             engagement_score := (xEx.tweet_count : ℚ)
             recency_score := min (max (100 - ageHoursAt 7200 xEx.fetched_at) 0) 100
             calculated_at := 7200
             metadata := ScoreMeta.xmeta xEx.category xEx.url } :=
  (trendingScore_formula_as_implemented 7200 [xEx] [] [] (by decide) (by decide)).1
    xEx (List.mem_singleton_self xEx) (by decide) (by decide)

/-- Claim C2 counterexample: for the fixture trend the stored trendingScore
is three hundred one thousand five hundred ten, while the formula of the
spec evaluates to ninety-nine point seven on the stored engagement, recency
and velocity scores; the stored value does not satisfy the spec formula. -/
theorem trending_formula_spec_counterexample :
    lookupScore (calculate_trending_scores 7200 [xEx] [] []) ("x_trend", "t1") =
      some (xScoreRow 7200 xEx) ∧
    (xScoreRow 7200 xEx).trending_score = 301510 ∧
    spec_trendingScore 10000 (xScoreRow 7200 xEx).engagement_score
      (xScoreRow 7200 xEx).recency_score (xScoreRow 7200 xEx).velocity_score = 997 / 10 ∧
    (xScoreRow 7200 xEx).trending_score ≠ spec_trendingScore 10000
      (xScoreRow 7200 xEx).engagement_score (xScoreRow 7200 xEx).recency_score
      (xScoreRow 7200 xEx).velocity_score := by
  have h1 : (xScoreRow 7200 xEx).trending_score = 301510 := by
    norm_num [xScoreRow, xEx, ageHoursAt, max_def]
  have h2 : spec_trendingScore 10000 (xScoreRow 7200 xEx).engagement_score
      (xScoreRow 7200 xEx).recency_score (xScoreRow 7200 xEx).velocity_score = 997 / 10 := by
    norm_num [spec_trendingScore, xScoreRow, xEx, ageHoursAt, max_def, min_def]
  refine ⟨rfl, h1, h2, ?_⟩
  rw [h1, h2]
  norm_num

/-- First admitted call of a caller with no buckets: reported remaining nine
under an hourly limit of ten, and a fresh bucket with both counters one. -/
theorem apiCall_fresh (tier : SubscriptionTier) (uid : String) (t : Nat)
    (h10 : tier.api_calls_per_hour = 10) (hdl : 10 ≤ tier.api_calls_per_day) :
    apiCall (some tier) [] uid t =
      (ApiOutcome.ok 9 10 (t + 60), [mkBucket uid (dateOf t) (hourOfDay t) 1 1]) := by
  have hd0 : ¬ (tier.api_calls_per_day ≤ 0) := by omega
  have hmin : min (tier.api_calls_per_hour - 0) (tier.api_calls_per_day - 0) = 10 := by omega
  unfold apiCall checkRateLimit incrementRateLimit findBucket bucketsFor mkBucket
  simp [maybeSingle, h10, hd0, hmin, hdl]

/-- An admitted call against the current-hour bucket holding k of 10:
reported remaining nine minus k, both counters bumped. -/
theorem apiCall_same_bucket (tier : SubscriptionTier) (uid : String) (t0 t k : Nat)
    (hd : dateOf t0 = dateOf t) (hh : hourOfDay t0 = hourOfDay t)
    (h10 : tier.api_calls_per_hour = 10) (hdl : 10 ≤ tier.api_calls_per_day)
    (hk : k < 10) :
    apiCall (some tier) [mkBucket uid (dateOf t0) (hourOfDay t0) k k] uid t =
      (ApiOutcome.ok (9 - k) 10 (t + 60),
       [mkBucket uid (dateOf t0) (hourOfDay t0) (k + 1) (k + 1)]) := by
  have hkh : ¬ (tier.api_calls_per_hour ≤ k) := by omega
  have hkd : ¬ (tier.api_calls_per_day ≤ k) := by omega
  have hmin : min (tier.api_calls_per_hour - k) (tier.api_calls_per_day - k) = 10 - k := by
    omega
  have hrem : 10 - k - 1 = 9 - k := by omega
  have hk10 : ¬ (10 ≤ k) := by omega
  have hmin10 : min (10 - k) (tier.api_calls_per_day - k) = 10 - k :=
    min_eq_left (by omega)
  rw [hd, hh]
  unfold apiCall checkRateLimit incrementRateLimit findBucket bucketsFor mkBucket
  simp [maybeSingle, hkh, hkd, hmin10, hrem, h10, hk10]

/-- A call against a full current-hour bucket is denied with the hourly
message and a reset at the start of the next hour; the store is unchanged. -/
theorem apiCall_over_limit (tier : SubscriptionTier) (uid : String) (t0 t c : Nat)
    (hd : dateOf t0 = dateOf t) (hh : hourOfDay t0 = hourOfDay t)
    (h10 : tier.api_calls_per_hour = 10) (hc : 10 ≤ c) :
    apiCall (some tier) [mkBucket uid (dateOf t0) (hourOfDay t0) c c] uid t =
      (ApiOutcome.denied 0 10 (startOfNextHour t)
        (some "Hourly rate limit exceeded. Limit: 10 requests/hour"),
       [mkBucket uid (dateOf t0) (hourOfDay t0) c c]) := by
  have hch : tier.api_calls_per_hour ≤ c := by omega
  have hmsg : "Hourly rate limit exceeded. Limit: " ++ toString (10 : Nat) ++
      " requests/hour" = "Hourly rate limit exceeded. Limit: 10 requests/hour" := by decide
  rw [hd, hh]
  unfold apiCall checkRateLimit findBucket mkBucket
  simp [maybeSingle, hch, h10, hmsg, hc]

/-- A call in a fresh hour, with only a bucket of another hour present, is
admitted again with reported remaining nine. -/
theorem apiCall_new_hour (tier : SubscriptionTier) (uid : String) (t0 t c : Nat)
    (hne : ¬ (dateOf t0 = dateOf t ∧ hourOfDay t0 = hourOfDay t))
    (h10 : tier.api_calls_per_hour = 10) (hdl : 10 ≤ tier.api_calls_per_day) :
    (apiCall (some tier) [mkBucket uid (dateOf t0) (hourOfDay t0) c c] uid t).1 =
      ApiOutcome.ok 9 10 (t + 60) := by
  have hd0 : ¬ (tier.api_calls_per_day ≤ 0) := by omega
  have hmin : min (tier.api_calls_per_hour - 0) (tier.api_calls_per_day - 0) = 10 := by omega
  unfold apiCall checkRateLimit incrementRateLimit findBucket bucketsFor mkBucket
  simp [maybeSingle, h10, hd0, hmin, hne, hdl]

/-- Two clock values in the same hour share a bucket key. -/
theorem sameHour_key (a b H : Nat) (ha : a / 60 = H) (hb : b / 60 = H) :
    dateOf a = dateOf b ∧ hourOfDay a = hourOfDay b := by
  unfold dateOf hourOfDay
  have h1440 : (1440 : Nat) = 60 * 24 := rfl
  rw [h1440, ← Nat.div_div_eq_div_mul, ← Nat.div_div_eq_div_mul, ha, hb]
  exact ⟨rfl, rfl⟩

/-- Claim C6: with an hourly limit of ten and daily headroom, eleven calls
within one hour and a twelfth after the hour boundary behave as the quota
scenario prescribes: ten admissions reporting remaining nine down to zero,
an eleventh denial with the hourly message and a reset at the start of the
next hour, then a fresh admission reporting remaining nine. -/
theorem quota_scenario_hourly_limit10
    (tier : SubscriptionTier) (uid : String)
    (H t1 t2 t3 t4 t5 t6 t7 t8 t9 t10 t11 t12 : Nat)
    (h10 : tier.api_calls_per_hour = 10) (hdl : 10 ≤ tier.api_calls_per_day)
    (e1 : t1 / 60 = H) (e2 : t2 / 60 = H) (e3 : t3 / 60 = H) (e4 : t4 / 60 = H)
    (e5 : t5 / 60 = H) (e6 : t6 / 60 = H) (e7 : t7 / 60 = H) (e8 : t8 / 60 = H)
    (e9 : t9 / 60 = H) (e10 : t10 / 60 = H) (e11 : t11 / 60 = H)
    (e12 : t12 / 60 = H + 1) :
    runCalls (some tier) uid [] [t1, t2, t3, t4, t5, t6, t7, t8, t9, t10, t11, t12] =
      [ApiOutcome.ok 9 10 (t1 + 60), ApiOutcome.ok 8 10 (t2 + 60),
       ApiOutcome.ok 7 10 (t3 + 60), ApiOutcome.ok 6 10 (t4 + 60),
       ApiOutcome.ok 5 10 (t5 + 60), ApiOutcome.ok 4 10 (t6 + 60),
       ApiOutcome.ok 3 10 (t7 + 60), ApiOutcome.ok 2 10 (t8 + 60),
       ApiOutcome.ok 1 10 (t9 + 60), ApiOutcome.ok 0 10 (t10 + 60),
       ApiOutcome.denied 0 10 ((H + 1) * 60)
         (some "Hourly rate limit exceeded. Limit: 10 requests/hour"),
       ApiOutcome.ok 9 10 (t12 + 60)] := by
  have hne : ¬ (dateOf t1 = dateOf t12 ∧ hourOfDay t1 = hourOfDay t12) := by
    have hx1 : dateOf t1 = H / 24 := by
      unfold dateOf
      rw [show (1440 : Nat) = 60 * 24 from rfl, ← Nat.div_div_eq_div_mul, e1]
    have hx2 : dateOf t12 = (H + 1) / 24 := by
      unfold dateOf
      rw [show (1440 : Nat) = 60 * 24 from rfl, ← Nat.div_div_eq_div_mul, e12]
    have hy1 : hourOfDay t1 = H % 24 := by unfold hourOfDay; rw [e1]
    have hy2 : hourOfDay t12 = (H + 1) % 24 := by unfold hourOfDay; rw [e12]
    rw [hx1, hx2, hy1, hy2]
    omega
  have hreset : startOfNextHour t11 = (H + 1) * 60 := by
    unfold startOfNextHour
    rw [e11]
  simp only [runCalls]
  rw [apiCall_fresh tier uid t1 h10 hdl]
  dsimp only
  rw [apiCall_same_bucket tier uid t1 t2 1 (sameHour_key t1 t2 H e1 e2).1
    (sameHour_key t1 t2 H e1 e2).2 h10 hdl (by omega)]
  dsimp only
  rw [apiCall_same_bucket tier uid t1 t3 2 (sameHour_key t1 t3 H e1 e3).1
    (sameHour_key t1 t3 H e1 e3).2 h10 hdl (by omega)]
  dsimp only
  rw [apiCall_same_bucket tier uid t1 t4 3 (sameHour_key t1 t4 H e1 e4).1
    (sameHour_key t1 t4 H e1 e4).2 h10 hdl (by omega)]
  dsimp only
  rw [apiCall_same_bucket tier uid t1 t5 4 (sameHour_key t1 t5 H e1 e5).1
    (sameHour_key t1 t5 H e1 e5).2 h10 hdl (by omega)]
  dsimp only
  rw [apiCall_same_bucket tier uid t1 t6 5 (sameHour_key t1 t6 H e1 e6).1
    (sameHour_key t1 t6 H e1 e6).2 h10 hdl (by omega)]
  dsimp only
  rw [apiCall_same_bucket tier uid t1 t7 6 (sameHour_key t1 t7 H e1 e7).1
    (sameHour_key t1 t7 H e1 e7).2 h10 hdl (by omega)]
  dsimp only
  rw [apiCall_same_bucket tier uid t1 t8 7 (sameHour_key t1 t8 H e1 e8).1
    (sameHour_key t1 t8 H e1 e8).2 h10 hdl (by omega)]
  dsimp only
  rw [apiCall_same_bucket tier uid t1 t9 8 (sameHour_key t1 t9 H e1 e9).1
    (sameHour_key t1 t9 H e1 e9).2 h10 hdl (by omega)]
  dsimp only
  rw [apiCall_same_bucket tier uid t1 t10 9 (sameHour_key t1 t10 H e1 e10).1
    (sameHour_key t1 t10 H e1 e10).2 h10 hdl (by omega)]
  dsimp only
  rw [apiCall_over_limit tier uid t1 t11 10 (sameHour_key t1 t11 H e1 e11).1
    (sameHour_key t1 t11 H e1 e11).2 h10 (le_refl 10)]
  dsimp only
  rw [apiCall_new_hour tier uid t1 t12 10 hne h10 hdl, hreset]

/-- Claim C6 witness: the free tier of ten hourly and one hundred daily
calls, eleven calls in hour zero and one in hour one. -/
theorem quota_scenario_hourly_limit10_witness :
    runCalls (some freeTierEx) "u" [] [0, 1, 2, 3, 4, 5, 6, 7, 8, 9, 10, 60] =
      [ApiOutcome.ok 9 10 (0 + 60), ApiOutcome.ok 8 10 (1 + 60),
       ApiOutcome.ok 7 10 (2 + 60), ApiOutcome.ok 6 10 (3 + 60),
       ApiOutcome.ok 5 10 (4 + 60), ApiOutcome.ok 4 10 (5 + 60),
       ApiOutcome.ok 3 10 (6 + 60), ApiOutcome.ok 2 10 (7 + 60),
       ApiOutcome.ok 1 10 (8 + 60), ApiOutcome.ok 0 10 (9 + 60),
       ApiOutcome.denied 0 10 ((0 + 1) * 60)
         (some "Hourly rate limit exceeded. Limit: 10 requests/hour"),
       ApiOutcome.ok 9 10 (60 + 60)] :=
  quota_scenario_hourly_limit10 freeTierEx "u" 0 0 1 2 3 4 5 6 7 8 9 10 60
    rfl (by decide) rfl rfl rfl rfl rfl rfl rfl rfl rfl rfl rfl rfl

/-- The current-hour lookup filters the caller's date bucket list by hour. -/
theorem findBucket_eq (s : List RateBucket) (uid : String) (t : Nat) :
    findBucket s uid t = maybeSingle ((bucketsFor s uid (dateOf t)).filter
      (fun b => b.hour = hourOfDay t)) := by
  unfold findBucket bucketsFor
  congr 1
  rw [List.filter_filter]
  apply List.filter_congr
  intro b _
  by_cases h1 : b.user_id = uid <;> by_cases h2 : b.date = dateOf t <;>
    by_cases h3 : b.hour = hourOfDay t <;> simp [h1, h2, h3]

/-- Buckets of a caller and date distribute over store concatenation. -/
theorem bucketsFor_append (s l : List RateBucket) (uid : String) (d : Nat) :
    bucketsFor (s ++ l) uid d = bucketsFor s uid d ++ bucketsFor l uid d :=
  List.filter_append s l

/-- A key-preserving rewrite of the store commutes with bucket selection. -/
theorem bucketsFor_map (s : List RateBucket) (uid : String) (d : Nat)
    (f : RateBucket → RateBucket)
    (hf : ∀ b, (f b).user_id = b.user_id ∧ (f b).date = b.date) :
    bucketsFor (s.map f) uid d = (bucketsFor s uid d).map f := by
  unfold bucketsFor
  rw [List.filter_map]
  congr 1
  apply List.filter_congr
  intro b _
  simp [Function.comp, (hf b).1, (hf b).2]

/-- With strictly increasing hours, filtering on the hour of a member
returns exactly that member. -/
theorem filter_hour_eq_single (l : List RateBucket) (a : RateBucket)
    (hpw : l.Pairwise (fun x y => x.hour < y.hour)) (ha : a ∈ l) :
    l.filter (fun b => b.hour = a.hour) = [a] := by
  induction l with
  | nil => cases ha
  | cons x l ih =>
    rw [List.pairwise_cons] at hpw
    rcases List.mem_cons.mp ha with rfl | ha2
    · rw [List.filter_cons_of_pos (by simp)]
      rw [List.filter_eq_nil_iff.mpr]
      intro y hy
      have := hpw.1 y hy
      simp
      omega
    · rw [List.filter_cons_of_neg]
      · exact ih hpw.2 ha2
      · have := hpw.1 a ha2
        simp
        omega

/-- With strictly increasing hours, a member bounding every hour is the
last element. -/
theorem getLast?_eq_of_max (l : List RateBucket) (tr : RateBucket)
    (hpw : l.Pairwise (fun x y => x.hour < y.hour)) (htr : tr ∈ l)
    (hmax : ∀ b ∈ l, b.hour ≤ tr.hour) :
    l.getLast? = some tr := by
  induction l with
  | nil => cases htr
  | cons x l ih =>
    rw [List.pairwise_cons] at hpw
    cases l with
    | nil =>
      simp at htr
      simp [htr]
    | cons y l2 =>
      have hmem : tr ∈ y :: l2 := by
        rcases List.mem_cons.mp htr with rfl | h2
        · exfalso
          have h1 := hpw.1 y (List.mem_cons_self y l2)
          have h2 := hmax y (List.mem_cons_of_mem _ (List.mem_cons_self y l2))
          omega
        · exact h2
      rw [List.getLast?_cons_cons]
      exact ih hpw.2 hmem (fun b hb => hmax b (List.mem_cons_of_mem _ hb))

/-- A list's optional last element, when present, is a member. -/
theorem mem_of_getLast?_eq {β : Type} {l : List β} {b : β} (h : l.getLast? = some b) :
    b ∈ l := by
  have hx : b ∈ l.getLast? := by simp [h]
  obtain ⟨hne, rfl⟩ := List.mem_getLast?_eq_getLast hx
  exact List.getLast_mem hne

/-- With strictly increasing hours, every hour is at most the last one. -/
theorem le_hour_getLast (l : List RateBucket) (b : RateBucket)
    (hpw : l.Pairwise (fun x y => x.hour < y.hour)) (hb : l.getLast? = some b) :
    ∀ x ∈ l, x.hour ≤ b.hour := by
  induction l with
  | nil => simp
  | cons y l ih =>
    rw [List.pairwise_cons] at hpw
    cases l with
    | nil =>
      intro x hx
      simp at hb hx
      subst hb
      subst hx
      exact le_refl _
    | cons z l2 =>
      rw [List.getLast?_cons_cons] at hb
      intro x hx
      rcases List.mem_cons.mp hx with rfl | hx2
      · have hbmem : b ∈ z :: l2 := mem_of_getLast?_eq hb
        exact le_of_lt (hpw.1 b hbmem)
      · exact ih hpw.2 hb x hx2

/-- Two clock values of one date keep their hour order. -/
theorem hourOfDay_mono (a b : Nat) (hd : dateOf a = dateOf b) (hab : a ≤ b) :
    hourOfDay a ≤ hourOfDay b := by
  unfold dateOf at hd
  unfold hourOfDay
  omega

/-- Invariant of a run of recordUsage calls of one caller on one date with a
monotone clock: the caller's buckets for that date keep strictly increasing
hours, the last one carries the running daily total, and the list is
nonempty once a call has happened. -/
theorem recordUsageAll_loop (uid : String) (d : Nat) :
    ∀ (ts : List Nat) (s : List RateBucket) (k : Nat),
      (∀ t ∈ ts, dateOf t = d) →
      List.Pairwise (fun a b : Nat => a ≤ b) ts →
      (∀ b ∈ bucketsFor s uid d, ∀ t ∈ ts, b.hour ≤ hourOfDay t) →
      (bucketsFor s uid d).Pairwise (fun x y => x.hour < y.hour) →
      ((bucketsFor s uid d).getLast?.map (fun b => b.daily_count)).getD 0 = k →
      ((bucketsFor (recordUsageAll uid s ts) uid d).Pairwise (fun x y => x.hour < y.hour)) ∧
      (((bucketsFor (recordUsageAll uid s ts) uid d).getLast?.map
        (fun b => b.daily_count)).getD 0 = k + ts.length) ∧
      (ts ≠ [] → bucketsFor (recordUsageAll uid s ts) uid d ≠ []) := by
  intro ts
  induction ts with
  | nil =>
    intro s k _ _ _ hpw hlast
    exact ⟨hpw, by simpa using hlast, fun h => absurd rfl h⟩
  | cons t ts ih =>
    intro s k hdate hsorted hbound hpw hlast
    have htd : dateOf t = d := hdate t (List.mem_cons_self t ts)
    have hts : ∀ t2 ∈ ts, dateOf t2 = d := fun t2 h => hdate t2 (List.mem_cons_of_mem t h)
    have hsorted2 := (List.pairwise_cons.mp hsorted).2
    have htle : ∀ t2 ∈ ts, t ≤ t2 := (List.pairwise_cons.mp hsorted).1
    have hkey : (bucketsFor (incrementRateLimit s uid t) uid d).Pairwise
          (fun x y => x.hour < y.hour) ∧
        ((bucketsFor (incrementRateLimit s uid t) uid d).getLast?.map
          (fun b => b.daily_count)).getD 0 = k + 1 ∧
        (∀ b ∈ bucketsFor (incrementRateLimit s uid t) uid d, ∀ t2 ∈ ts,
          b.hour ≤ hourOfDay t2) ∧
        bucketsFor (incrementRateLimit s uid t) uid d ≠ [] := by
      rcases hfind : findBucket s uid t with _ | tr
      · have hfind2 := hfind
        rw [findBucket_eq] at hfind2
        have hinc : incrementRateLimit s uid t = s ++
            [mkBucket uid (dateOf t) (hourOfDay t) 1
              ((((bucketsFor s uid (dateOf t)).getLast?.map
                (fun b => b.daily_count)).getD 0) + 1)] := by
          unfold incrementRateLimit
          rw [hfind]
          rfl
        have hpass : bucketsFor (incrementRateLimit s uid t) uid d =
            bucketsFor s uid d ++ [mkBucket uid (dateOf t) (hourOfDay t) 1
              ((((bucketsFor s uid (dateOf t)).getLast?.map
                (fun b => b.daily_count)).getD 0) + 1)] := by
          rw [hinc, bucketsFor_append]
          congr 1
          unfold bucketsFor mkBucket
          simp [htd]
        have hnotin : ∀ b ∈ bucketsFor s uid d, b.hour ≠ hourOfDay t := by
          intro b hb hbh
          rw [htd] at hfind2
          rw [← hbh] at hfind2
          rw [filter_hour_eq_single (bucketsFor s uid d) b hpw hb] at hfind2
          simp [maybeSingle] at hfind2
        have hlt : ∀ b ∈ bucketsFor s uid d, b.hour < hourOfDay t := by
          intro b hb
          exact lt_of_le_of_ne (hbound b hb t (List.mem_cons_self t ts)) (hnotin b hb)
        refine ⟨?_, ?_, ?_, ?_⟩
        · rw [hpass]
          rw [List.pairwise_append]
          refine ⟨hpw, by simp, ?_⟩
          intro a ha b hb
          rw [List.mem_singleton] at hb
          subst hb
          simpa [mkBucket] using hlt a ha
        · rw [hpass, List.getLast?_concat]
          rw [htd]
          simp [mkBucket, hlast]
        · intro b hb t2 ht2
          rw [hpass] at hb
          rcases List.mem_append.mp hb with hbl | hbr
          · exact hbound b hbl t2 (List.mem_cons_of_mem t ht2)
          · rw [List.mem_singleton] at hbr
            subst hbr
            show hourOfDay t ≤ hourOfDay t2
            exact hourOfDay_mono t t2 (by rw [htd, hts t2 ht2]) (htle t2 ht2)
        · rw [hpass]
          simp
      · have hfind2 := hfind
        rw [findBucket_eq] at hfind2
        have hfl : (bucketsFor s uid (dateOf t)).filter (fun b => b.hour = hourOfDay t) =
            [tr] := maybeSingle_eq_some hfind2
        have htr_mem : tr ∈ bucketsFor s uid d := by
          rw [← htd]
          exact List.mem_of_mem_filter (hfl ▸ List.mem_singleton_self tr)
        have htr_hour : tr.hour = hourOfDay t := by
          have := List.of_mem_filter (hfl ▸ List.mem_singleton_self tr)
          simpa using this
        have htr_last : (bucketsFor s uid d).getLast? = some tr :=
          getLast?_eq_of_max _ tr hpw htr_mem
            (fun b hb => htr_hour ▸ hbound b hb t (List.mem_cons_self t ts))
        have htr_daily : tr.daily_count = k := by
          rw [htr_last] at hlast
          simpa using hlast
        have hinc : incrementRateLimit s uid t =
            s.map (fun b => if b = tr then bumpBucket b else b) := by
          unfold incrementRateLimit
          rw [hfind]
          rfl
        have hfkeys : ∀ b : RateBucket,
            ((if b = tr then bumpBucket b else b).user_id = b.user_id ∧
             (if b = tr then bumpBucket b else b).date = b.date) := by
          intro b
          by_cases hb : b = tr <;> simp [hb, bumpBucket]
        have hfhour : ∀ b : RateBucket,
            (if b = tr then bumpBucket b else b).hour = b.hour := by
          intro b
          by_cases hb : b = tr <;> simp [hb, bumpBucket]
        have hmap : bucketsFor (incrementRateLimit s uid t) uid d =
            (bucketsFor s uid d).map (fun b => if b = tr then bumpBucket b else b) := by
          rw [hinc]
          exact bucketsFor_map s uid d _ hfkeys
        refine ⟨?_, ?_, ?_, ?_⟩
        · rw [hmap]
          refine hpw.map _ ?_
          intro a b hab
          rw [hfhour, hfhour]
          exact hab
        · rw [hmap, List.getLast?_map, htr_last]
          simp [bumpBucket, htr_daily]
        · intro b hb t2 ht2
          rw [hmap] at hb
          obtain ⟨b0, hb0, rfl⟩ := List.mem_map.mp hb
          rw [hfhour]
          exact hbound b0 hb0 t2 (List.mem_cons_of_mem t ht2)
        · rw [hmap]
          intro hcon
          rw [List.map_eq_nil_iff] at hcon
          rw [hcon] at htr_mem
          cases htr_mem
    obtain ⟨Q1, Q2, Q3, Q4⟩ := hkey
    have hres := ih (incrementRateLimit s uid t) (k + 1) hts hsorted2 Q3 Q1 Q2
    simp only [recordUsageAll]
    refine ⟨hres.1, ?_, ?_⟩
    · rw [hres.2.1]
      simp
      omega
    · intro _
      cases ts with
      | nil => simpa [recordUsageAll] using Q4
      | cons u us => exact hres.2.2 (by simp)

/-- Claim C7: starting a date with no buckets, a single-threaded monotone
sequence of recordUsage calls on that date leaves the caller's bucket of the
latest hour carrying a daily count equal to the number of calls; a freshly
created hour bucket is seeded from the most recently created bucket of the
date, or zero, plus one; and one recordUsage call never decrements any
counter. -/
theorem daily_carry_forward_invariant (uid : String) (d : Nat) (s : List RateBucket)
    (ts : List Nat)
    (hinit : bucketsFor s uid d = [])
    (hdate : ∀ t ∈ ts, dateOf t = d)
    (hmono : ts.Chain' (fun a b : Nat => a ≤ b)) :
    (ts ≠ [] → ∃ b ∈ bucketsFor (recordUsageAll uid s ts) uid d,
       b.daily_count = ts.length ∧
       ∀ b2 ∈ bucketsFor (recordUsageAll uid s ts) uid d, b2.hour ≤ b.hour) ∧
    (∀ (s2 : List RateBucket) (t : Nat), findBucket s2 uid t = none →
       incrementRateLimit s2 uid t = s2 ++ [mkBucket uid (dateOf t) (hourOfDay t) 1
         ((((bucketsFor s2 uid (dateOf t)).getLast?.map
           (fun b => b.daily_count)).getD 0) + 1)]) ∧
    (∀ (s2 : List RateBucket) (t : Nat) (b : RateBucket), b ∈ s2 →
       ∃ b2 ∈ incrementRateLimit s2 uid t,
         b2.user_id = b.user_id ∧ b2.date = b.date ∧ b2.hour = b.hour ∧
         b.hourly_count ≤ b2.hourly_count ∧ b.daily_count ≤ b2.daily_count) := by
  refine ⟨?_, ?_, ?_⟩
  · intro hne
    have hsorted : ts.Pairwise (fun a b : Nat => a ≤ b) :=
      List.chain'_iff_pairwise.mp hmono
    obtain ⟨R1, R2, R3⟩ := recordUsageAll_loop uid d ts s 0 hdate hsorted
      (by rw [hinit]; simp) (by rw [hinit]; exact List.Pairwise.nil) (by rw [hinit]; rfl)
    rcases hlast : (bucketsFor (recordUsageAll uid s ts) uid d).getLast? with _ | b
    · exact absurd (by simpa using List.getLast?_eq_none_iff.mp hlast) (R3 hne)
    · refine ⟨b, mem_of_getLast?_eq hlast, ?_, ?_⟩
      · rw [hlast] at R2
        simpa using R2
      · exact le_hour_getLast _ b R1 hlast
  · intro s2 t hfound
    unfold incrementRateLimit
    rw [hfound]
    rfl
  · intro s2 t b hb
    unfold incrementRateLimit
    rcases hf2 : findBucket s2 uid t with _ | tr
    · exact ⟨b, List.mem_append_left _ hb, rfl, rfl, rfl, le_refl _, le_refl _⟩
    · refine ⟨if b = tr then bumpBucket b else b, List.mem_map_of_mem _ hb, ?_⟩
      by_cases hbtr : b = tr <;> simp [hbtr, bumpBucket]

/-- Claim C7 witness: three calls on date zero in hours zero, one and two
leave the latest bucket with daily count three; the step facts hold at the
empty store and clock zero. -/
theorem daily_carry_forward_invariant_witness :
    ((([0, 70, 130] : List Nat) ≠ [] → ∃ b ∈ bucketsFor (recordUsageAll "u" [] [0, 70, 130]) "u" 0,
       b.daily_count = ([0, 70, 130] : List Nat).length ∧
       ∀ b2 ∈ bucketsFor (recordUsageAll "u" [] [0, 70, 130]) "u" 0, b2.hour ≤ b.hour) ∧
    (∀ (s2 : List RateBucket) (t : Nat), findBucket s2 "u" t = none →
       incrementRateLimit s2 "u" t = s2 ++ [mkBucket "u" (dateOf t) (hourOfDay t) 1
         ((((bucketsFor s2 "u" (dateOf t)).getLast?.map
           (fun b => b.daily_count)).getD 0) + 1)]) ∧
    (∀ (s2 : List RateBucket) (t : Nat) (b : RateBucket), b ∈ s2 →
       ∃ b2 ∈ incrementRateLimit s2 "u" t,
         b2.user_id = b.user_id ∧ b2.date = b.date ∧ b2.hour = b.hour ∧
         b.hourly_count ≤ b2.hourly_count ∧ b.daily_count ≤ b2.daily_count)) :=
  daily_carry_forward_invariant "u" 0 [] [0, 70, 130] rfl (by decide)
    (by simp [List.chain'_cons])

end DragonPanda
